import Mathlib

/-!
Verification of the fill-aggregation and perspective-canonicalization
pipeline of `clean_polymarket.py` (prediction-markets repository).

The Python source is shallowly embedded: a pandas `DataFrame` of fills
becomes a `List Fill`; fixed-point integer amounts stay `Int` and the
scale division (`/ DECIMALS`, six implied decimals) is carried out in `ℚ`;
the fallible cleaning entry point returns `Except String` in place of a
raised `RuntimeError`.  CSV parsing and on-chain keccak-256 hashing are
outside the embedded core: the former delivers typed `Fill` records, the
latter is passed in as an abstract derivation function.
-/

namespace CleanPolymarket

/-- One raw order fill, one row of the input file
(`clean_polymarket.py`, §6 of the design: columns `timestamp,
transactionHash, maker, taker, makerAssetId, makerAmountFilled,
takerAssetId, takerAmountFilled`). -/
structure Fill where
  transactionHash : String
  timestamp : Int
  maker : String
  taker : String
  makerAssetId : String
  makerAmountFilled : Int
  takerAssetId : String
  takerAmountFilled : Int
  deriving Repr, DecidableEq, Inhabited

/-- Sentinel asset id of the settlement currency (`USDC_ZERO_ID = "0"`). -/
def USDC_ZERO_ID : String := "0"

/-- Fixed-point scale: 6 implied decimals (`DECIMALS = 1_000_000`). -/
def DECIMALS : ℚ := 1000000

/-- Built-in default YES token id (`DEFAULT_YES_TOKEN`). -/
def DEFAULT_YES_TOKEN : String :=
  "73817598408230683831072353847770809458837920203753987347670649717002095543451"

/-- Built-in default NO token id (`DEFAULT_NO_TOKEN`). -/
def DEFAULT_NO_TOKEN : String :=
  "102505737677514435038431832532030540090751572260157019042399710777845176913904"

/-- The `--perspective` choice: `taker` or `maker`. -/
inductive Perspective where
  | taker
  | maker
  deriving Repr, DecidableEq

/-- BUY/SELL classification of an emitted trade. -/
inductive Side where
  | BUY
  | SELL
  deriving Repr, DecidableEq

/-- Outcome label of an emitted trade. -/
inductive Outcome where
  | Yes
  | No
  deriving Repr, DecidableEq

/-- One emitted canonical trade row (the dict appended to `results` in
`canon_group`, minus the cosmetic `datetime_utc` column added later). -/
structure Trade where
  transactionHash : String
  timestamp : Int
  side : Side
  outcome : Outcome
  price : Option ℚ
  size : ℚ
  volume_usdc : ℚ
  asset : String
  proxyWallet : String
  title : String
  slug : String
  eventSlug : String
  deriving Repr, DecidableEq

/-- Membership test `makerAssetId/takerAssetId ∈ TOKENS` where
`TOKENS = {YES_TOKEN, NO_TOKEN}`. -/
def isToken (yesTok noTok a : String) : Bool :=
  a == yesTok || a == noTok

/-- The fill-filter mask `mask_token_usdc` of `clean_trades`: keep only
token↔USDC fills. -/
def maskTokenUsdc (yesTok noTok : String) (f : Fill) : Bool :=
  (isToken yesTok noTok f.makerAssetId && (f.takerAssetId == USDC_ZERO_ID)) ||
  (isToken yesTok noTok f.takerAssetId && (f.makerAssetId == USDC_ZERO_ID))

/-- Embeds `df = df[mask_token_usdc]`. -/
def filterFills (yesTok noTok : String) (fills : List Fill) : List Fill :=
  fills.filter (maskTokenUsdc yesTok noTok)

/-- Embeds `token_fills`: the fills of a group that involve one specific token
on either side. -/
def tokenFills (tokenId : String) (g : List Fill) : List Fill :=
  g.filter (fun f => f.makerAssetId == tokenId || f.takerAssetId == tokenId)

/-- Signed contribution of one fill to `net_tokens` in `canon_group`:
`+amount/DECIMALS` when the perspective actor gains the token in this
fill, `-amount/DECIMALS` when it loses it. -/
def fillNet (persp : Perspective) (tokenId : String) (f : Fill) : ℚ :=
  if f.makerAssetId == tokenId then
    match persp with
    | Perspective.taker => (f.makerAmountFilled : ℚ) / DECIMALS
    | Perspective.maker => -((f.makerAmountFilled : ℚ) / DECIMALS)
  else
    match persp with
    | Perspective.taker => -((f.takerAmountFilled : ℚ) / DECIMALS)
    | Perspective.maker => (f.takerAmountFilled : ℚ) / DECIMALS

/-- Contribution of one fill to `total_usdc_volume` in `canon_group`: the
settlement-currency leg opposite the token leg (identical in both
perspective branches of the source). -/
def fillVolume (tokenId : String) (f : Fill) : ℚ :=
  if f.makerAssetId == tokenId then (f.takerAmountFilled : ℚ) / DECIMALS
  else (f.makerAmountFilled : ℚ) / DECIMALS

/-- Embeds `net_tokens` as accumulated over the loop
`for _, fill in token_fills.iterrows()`. -/
def netTokens (persp : Perspective) (tokenId : String) (g : List Fill) : ℚ :=
  ((tokenFills tokenId g).map (fillNet persp tokenId)).sum

/-- Embeds `total_usdc_volume` as accumulated over the same loop. -/
def totalUsdcVolume (tokenId : String) (g : List Fill) : ℚ :=
  ((tokenFills tokenId g).map (fillVolume tokenId)).sum

/-- Embeds `g.iloc[0]` on a nonempty group. -/
def firstFill (g : List Fill) : Fill := g.headI

/-- Embeds `int(g["timestamp"].max())`: maximum timestamp over the WHOLE
transaction group (all retained fills of the transaction, both tokens). -/
def maxTimestamp (g : List Fill) : Int :=
  ((g.map fun f => f.timestamp).max?).getD 0

/-- Embeds `g["maker"].iloc[0] if perspective == "maker" else g["taker"].iloc[0]`,
factored over the chosen fill. -/
def pwallet (persp : Perspective) (f : Fill) : String :=
  match persp with
  | Perspective.maker => f.maker
  | Perspective.taker => f.taker

/-- The record literal appended to `results` in `canon_group`. -/
def mkTrade (persp : Perspective) (yesTok title slug eventSlug : String)
    (g : List Fill) (tokenId : String) (side : Side) (size : ℚ) : Trade :=
  { transactionHash := (firstFill g).transactionHash
    timestamp := maxTimestamp g
    side := side
    outcome := if tokenId == yesTok then Outcome.Yes else Outcome.No
    price := if 0 < size then some (totalUsdcVolume tokenId g / size) else none
    size := size
    volume_usdc := totalUsdcVolume tokenId g
    asset := tokenId
    proxyWallet := pwallet persp (firstFill g)
    title := title
    slug := slug
    eventSlug := eventSlug }

/-- The body of the `for token_id in [YES_TOKEN, NO_TOKEN]` loop of
`canon_group`: zero or one trade for one token within one transaction
group. -/
def canonToken (persp : Perspective) (yesTok title slug eventSlug : String)
    (g : List Fill) (tokenId : String) : Option Trade :=
  let tf := tokenFills tokenId g
  if tf.isEmpty then none
  else
    let net := netTokens persp tokenId g
    if 0 < net then some (mkTrade persp yesTok title slug eventSlug g tokenId Side.BUY net)
    else if net < 0 then
      some (mkTrade persp yesTok title slug eventSlug g tokenId Side.SELL (abs net))
    else none

/-- Embeds `canon_group`: process the YES token then the NO token of one
transaction group, collecting the emitted trades. -/
def canon_group (persp : Perspective) (yesTok noTok title slug eventSlug : String)
    (g : List Fill) : List Trade :=
  [yesTok, noTok].filterMap (canonToken persp yesTok title slug eventSlug g)

/-- The fills of one transaction, in the order of the ambient list
(`groupby("transactionHash")` preserves within-group order). -/
def groupFills (tx : String) (fills : List Fill) : List Fill :=
  fills.filter (fun f => f.transactionHash == tx)

/-- Embeds `df.sort_values("timestamp")` before grouping. -/
def sortFillsByTs (fills : List Fill) : List Fill :=
  List.insertionSort (fun a b => a.timestamp ≤ b.timestamp) fills

/-- First-occurrence deduplication of the grouping keys. -/
def dedupKeepFirst (l : List String) : List String :=
  l.foldl (fun acc a => if a ∈ acc then acc else acc ++ [a]) []

/-- The grouped-and-canonicalized rows of `clean_trades`:
`df.sort_values("timestamp").groupby("transactionHash").apply(canon_group)`
with group keys in sorted order, as pandas `groupby` yields them. -/
def groupRows (persp : Perspective) (yesTok noTok title slug eventSlug : String)
    (kept : List Fill) : List Trade :=
  (List.insertionSort (fun a b : String => a ≤ b)
      (dedupKeepFirst ((sortFillsByTs kept).map fun f => f.transactionHash))).flatMap
    fun tx => canon_group persp yesTok noTok title slug eventSlug
      (groupFills tx (sortFillsByTs kept))

/-- Embeds `clean_trades`: filter to token↔USDC fills (raising on an empty
result), sort by timestamp, group by transaction hash, canonicalize every
group, and sort the emitted rows newest-first.  The cosmetic
`datetime_utc` column is not modelled. -/
def clean_trades (df : List Fill) (yesTok noTok title slug eventSlug : String)
    (persp : Perspective) : Except String (List Trade) :=
  let kept := filterFills yesTok noTok df
  if kept.isEmpty then Except.error "No token↔USDC fills found."
  else
    Except.ok (List.insertionSort (fun a b : Trade => b.timestamp ≤ a.timestamp)
      (groupRows persp yesTok noTok title slug eventSlug kept))

/-- Python truthiness of an optional string argument (`argparse` yields
`None` when absent; the empty string is also falsy). -/
def truthy : Option String → Bool
  | none => false
  | some s => s != ""

/-- The maker-asset and taker-asset identifier multiset of the dataset,
settlement sentinel excluded (`assets = assets[assets != USDC_ZERO_ID]`
after `pd.concat`). -/
def nonZeroAssets (df : List Fill) : List String :=
  ((df.map fun f => f.makerAssetId) ++ (df.map fun f => f.takerAssetId)).filter
    (fun a => a != USDC_ZERO_ID)

/-- Embeds `value_counts().index.tolist()`: distinct values ordered by frequency
descending, ties by first occurrence. -/
def value_counts (l : List String) : List String :=
  List.insertionSort (fun a b => l.count b ≤ l.count a) (dedupKeepFirst l)

/-- Python's `str(a).startswith("1025")`, stated structurally on the
character list so that it evaluates in the kernel. -/
def startsWith1025 (a : String) : Bool :=
  List.isPrefixOf "1025".toList a.toList

/-- Embeds `infer_token_ids_from_file`: pick the two most frequent non-sentinel
asset ids; classify a top-two id starting with "1025" as NO and the other
as YES; when the loop does not leave both `yes` and `no` truthy, fall
back to the first two by frequency. -/
def infer_token_ids_from_file (df : List Fill) : Option (String × String) :=
  let uniq := value_counts (nonZeroAssets df)
  if 2 ≤ uniq.length then
    let yn := (uniq.take 2).foldl
      (fun (yn : Option String × Option String) a =>
        if startsWith1025 a then (yn.1, some a) else (some a, yn.2))
      (none, none)
    if truthy yn.1 && truthy yn.2 then some (yn.1.getD "", yn.2.getD "")
    else some (uniq.getD 0 "", uniq.getD 1 "")
  else none

/-- The optional command-line token-id sources consumed by
`determine_token_ids`.  (`yesIndex`/`noIndex` stand for the source's
`yes_index`/`no_index`; `no_index` is a reserved token in Lean.) -/
structure Args where
  yes_token : Option String := none
  no_token : Option String := none
  condition : Option String := none
  collateral : Option String := none
  yesIndex : Nat := 0
  noIndex : Nat := 1

/-- Embeds `determine_token_ids`: explicit pair, else on-chain derivation (its
keccak-256 core passed in as `derivePositionId`, `none` standing for a
raised exception), else the built-in default pair.  The dataset argument
is accepted but never consulted, exactly as in the source, where
`infer_token_ids_from_file` is never invoked. -/
def determine_token_ids (derivePositionId : String → Nat → String → Option String)
    (df : List Fill) (args : Args) : String × String :=
  if truthy args.yes_token && truthy args.no_token then
    (args.yes_token.getD "", args.no_token.getD "")
  else if truthy args.condition && truthy args.collateral then
    match derivePositionId (args.condition.getD "") args.yesIndex (args.collateral.getD ""),
          derivePositionId (args.condition.getD "") args.noIndex (args.collateral.getD "") with
    | some y, some n => (y, n)
    | _, _ => (DEFAULT_YES_TOKEN, DEFAULT_NO_TOKEN)
  else (DEFAULT_YES_TOKEN, DEFAULT_NO_TOKEN)

/-! ### Helper lemmas about the aggregation core -/

/-- An empty per-token fill set contributes a zero net. -/
lemma netTokens_of_tokenFills_nil {persp : Perspective} {tok : String} {g : List Fill}
    (h : tokenFills tok g = []) : netTokens persp tok g = 0 := by
  simp [netTokens, h]

/-- Lemma: `canon_group` emits nothing for a token absent from the group. -/
lemma canonToken_none_of_empty {persp : Perspective} {yesTok t s e tok : String}
    {g : List Fill} (h : tokenFills tok g = []) :
    canonToken persp yesTok t s e g tok = none := by
  simp [canonToken, h]

/-- Lemma: `canon_group` emits nothing for a token whose net is zero. -/
lemma canonToken_none_of_zero {persp : Perspective} {yesTok t s e tok : String}
    {g : List Fill} (h : netTokens persp tok g = 0) :
    canonToken persp yesTok t s e g tok = none := by
  by_cases hemp : (tokenFills tok g).isEmpty
  · simp [canonToken, hemp]
  · simp [canonToken, hemp, h]

/-- A positive net emits the BUY trade of `canon_group`. -/
lemma canonToken_of_pos {persp : Perspective} {yesTok t s e tok : String} {g : List Fill}
    (h : 0 < netTokens persp tok g) :
    canonToken persp yesTok t s e g tok =
      some (mkTrade persp yesTok t s e g tok Side.BUY (netTokens persp tok g)) := by
  have hemp : ¬ (tokenFills tok g).isEmpty := by
    intro he
    rw [List.isEmpty_iff] at he
    rw [netTokens_of_tokenFills_nil he] at h
    exact lt_irrefl 0 h
  simp [canonToken, hemp, h]

/-- A negative net emits the SELL trade of `canon_group`. -/
lemma canonToken_of_neg {persp : Perspective} {yesTok t s e tok : String} {g : List Fill}
    (h : netTokens persp tok g < 0) :
    canonToken persp yesTok t s e g tok =
      some (mkTrade persp yesTok t s e g tok Side.SELL (abs (netTokens persp tok g))) := by
  have hemp : ¬ (tokenFills tok g).isEmpty := by
    intro he
    rw [List.isEmpty_iff] at he
    rw [netTokens_of_tokenFills_nil he] at h
    exact lt_irrefl 0 h
  simp [canonToken, hemp, h, not_lt_of_gt h, asymm h]

/-- A nonzero net always emits, with size the absolute net. -/
lemma canonToken_of_ne {persp : Perspective} {yesTok t s e tok : String} {g : List Fill}
    (h : netTokens persp tok g ≠ 0) :
    canonToken persp yesTok t s e g tok =
      some (mkTrade persp yesTok t s e g tok
        (if 0 < netTokens persp tok g then Side.BUY else Side.SELL)
        (abs (netTokens persp tok g))) := by
  rcases lt_or_gt_of_ne h with hneg | hpos
  · rw [canonToken_of_neg hneg, if_neg (asymm hneg)]
  · rw [canonToken_of_pos hpos, if_pos hpos, abs_of_pos hpos]

/-- Inversion: every emitted trade of `canon_group` carries the group's
first-fill hash and wallet, the group-wide maximum timestamp, the
absolute net as size, the per-token volume, and the guarded price. -/
lemma canonToken_some_inv {persp : Perspective} {yesTok t s e tok : String}
    {g : List Fill} {tr : Trade}
    (h : canonToken persp yesTok t s e g tok = some tr) :
    tokenFills tok g ≠ [] ∧
    tr.transactionHash = (firstFill g).transactionHash ∧
    tr.timestamp = maxTimestamp g ∧
    tr.proxyWallet = pwallet persp (firstFill g) ∧
    tr.asset = tok ∧
    tr.volume_usdc = totalUsdcVolume tok g ∧
    tr.size = abs (netTokens persp tok g) ∧
    0 < tr.size ∧
    tr.price = some (totalUsdcVolume tok g / tr.size) := by
  have hne : netTokens persp tok g ≠ 0 := by
    intro h0
    rw [canonToken_none_of_zero h0] at h
    exact Option.noConfusion h
  have hemp : tokenFills tok g ≠ [] := by
    intro h0
    rw [canonToken_none_of_empty h0] at h
    exact Option.noConfusion h
  rw [canonToken_of_ne hne] at h
  obtain rfl := Option.some_injective _ h
  have habs : (0 : ℚ) < abs (netTokens persp tok g) := abs_pos.mpr hne
  refine ⟨hemp, rfl, rfl, rfl, rfl, rfl, rfl, habs, ?_⟩
  simp [mkTrade, habs]

/-! ### C3: the fill filter and its idempotence -/

/-- C3: given a market pair disjoint from the settlement sentinel, a fill
is retained iff exactly one side carries a market outcome token and the
opposite side carries the sentinel; filtering twice equals filtering
once. -/
theorem C3_filter_exactly_one_side_and_idempotent
    (yesTok noTok : String) (hy : yesTok ≠ USDC_ZERO_ID) (hn : noTok ≠ USDC_ZERO_ID)
    (fills : List Fill) (f : Fill) :
    (maskTokenUsdc yesTok noTok f = true ↔
      ((isToken yesTok noTok f.makerAssetId = true ∧ f.takerAssetId = USDC_ZERO_ID ∧
          isToken yesTok noTok f.takerAssetId = false) ∨
       (isToken yesTok noTok f.takerAssetId = true ∧ f.makerAssetId = USDC_ZERO_ID ∧
          isToken yesTok noTok f.makerAssetId = false))) ∧
    filterFills yesTok noTok (filterFills yesTok noTok fills) =
      filterFills yesTok noTok fills := by
  constructor
  · simp only [maskTokenUsdc, isToken, Bool.or_eq_true, Bool.and_eq_true, beq_iff_eq,
      Bool.or_eq_false_iff, beq_eq_false_iff_ne, ne_eq]
    constructor
    · rintro (⟨hm, ht0⟩ | ⟨ht, hm0⟩)
      · refine Or.inl ⟨hm, ht0, ?_, ?_⟩ <;> rw [ht0] <;> intro hc
        · exact hy hc.symm
        · exact hn hc.symm
      · refine Or.inr ⟨ht, hm0, ?_, ?_⟩ <;> rw [hm0] <;> intro hc
        · exact hy hc.symm
        · exact hn hc.symm
    · rintro (⟨hm, ht0, _⟩ | ⟨ht, hm0, _⟩)
      · exact Or.inl ⟨hm, ht0⟩
      · exact Or.inr ⟨ht, hm0⟩
  · simp only [filterFills, List.filter_filter, Bool.and_self]

/-- Witness for C3 at a concrete pair and fill. -/
theorem C3_witness :
    (maskTokenUsdc "Y" "N" ⟨"0xW", 1, "M", "T", "Y", 5, "0", 3⟩ = true ↔
      ((isToken "Y" "N" "Y" = true ∧ "0" = USDC_ZERO_ID ∧ isToken "Y" "N" "0" = false) ∨
       (isToken "Y" "N" "0" = true ∧ "Y" = USDC_ZERO_ID ∧ isToken "Y" "N" "Y" = false))) ∧
    filterFills "Y" "N" (filterFills "Y" "N" [⟨"0xW", 1, "M", "T", "Y", 5, "0", 3⟩]) =
      filterFills "Y" "N" [⟨"0xW", 1, "M", "T", "Y", 5, "0", 3⟩] :=
  C3_filter_exactly_one_side_and_idempotent "Y" "N" (by decide) (by decide)
    [⟨"0xW", 1, "M", "T", "Y", 5, "0", 3⟩] ⟨"0xW", 1, "M", "T", "Y", 5, "0", 3⟩

/-! ### C4: zero net emits nothing -/

/-- C4: when the signed net over a token's fills is exactly zero, no trade
record is emitted for that (transaction, token) pair, with no condition
on the accumulated settlement volume. -/
theorem C4_zero_net_emits_nothing (persp : Perspective) (yesTok t s e tok : String)
    (g : List Fill) (h : netTokens persp tok g = 0) :
    canonToken persp yesTok t s e g tok = none :=
  canonToken_none_of_zero h

/-- A transaction whose two fills cancel exactly in Yes tokens while
moving 4 USDC of volume. -/
def exC4 : List Fill :=
  [⟨"0xD", 1, "M1", "T1", "Y", 4000000, "0", 3000000⟩,
   ⟨"0xD", 2, "M2", "T2", "0", 1000000, "Y", 4000000⟩]

/-- Witness for C4: the cancelling transaction emits nothing although its
volume is nonzero. -/
theorem C4_witness :
    canonToken Perspective.taker "Y" "" "" "" exC4 "Y" = none ∧
    totalUsdcVolume "Y" exC4 ≠ 0 := by
  constructor
  · refine C4_zero_net_emits_nothing Perspective.taker "Y" "" "" "" "Y" exC4 ?_
    norm_num [netTokens, tokenFills, fillNet, exC4, DECIMALS,
      (by decide : ("0" : String) ≠ "Y")]
  · norm_num [totalUsdcVolume, tokenFills, fillVolume, exC4, DECIMALS,
      (by decide : ("0" : String) ≠ "Y")]

/-! ### C8: empty retained set is a hard failure -/

/-- C8: when the token↔USDC filter retains no fill, `clean_trades` fails
with the "no eligible fills" error and produces no output rows. -/
theorem C8_empty_filter_fatal (df : List Fill) (yesTok noTok t s e : String)
    (persp : Perspective) (h : filterFills yesTok noTok df = []) :
    clean_trades df yesTok noTok t s e persp =
      Except.error "No token↔USDC fills found." := by
  simp [clean_trades, h]

/-- Witness for C8 on a dataset with a single token-for-token fill, which
the filter drops. -/
theorem C8_witness :
    clean_trades [⟨"0xE", 1, "M", "T", "Y", 5, "N", 5⟩] "Y" "N" "" "" "" Perspective.taker =
      Except.error "No token↔USDC fills found." :=
  C8_empty_filter_fatal [⟨"0xE", 1, "M", "T", "Y", 5, "N", 5⟩] "Y" "N" "" "" ""
    Perspective.taker (by decide)

/-! ### C1: taker and maker perspectives are exact mirrors -/

/-- BUY↔SELL swap. -/
def Side.flip : Side → Side
  | Side.BUY => Side.SELL
  | Side.SELL => Side.BUY

/-- Per-fill mirror of the perspective branches of `canon_group`. -/
lemma fillNet_taker_neg_maker (tok : String) (f : Fill) :
    fillNet Perspective.taker tok f = -fillNet Perspective.maker tok f := by
  by_cases h : f.makerAssetId == tok <;> simp [fillNet, h]

/-- The whole-group net mirrors across perspectives. -/
lemma netTokens_taker_neg_maker (tok : String) (g : List Fill) :
    netTokens Perspective.taker tok g = -netTokens Perspective.maker tok g := by
  unfold netTokens
  generalize tokenFills tok g = l
  induction l with
  | nil => simp
  | cons f l ih => simp [ih, fillNet_taker_neg_maker, add_comm]

/-- C1: for each transaction group and token, the taker-perspective net is
the exact negation of the maker-perspective net; the emitted trade exists
in one perspective iff it exists in the other, with BUY↔SELL flipped
sides, the wallet switched from the group's taker to its maker, and
identical size and settlement volume. -/
theorem C1_perspective_mirror (yesTok t s e tok : String) (g : List Fill) :
    netTokens Perspective.taker tok g = -netTokens Perspective.maker tok g ∧
    (canonToken Perspective.taker yesTok t s e g tok).map Trade.side =
      (canonToken Perspective.maker yesTok t s e g tok).map (fun tr => tr.side.flip) ∧
    (canonToken Perspective.taker yesTok t s e g tok).map Trade.size =
      (canonToken Perspective.maker yesTok t s e g tok).map Trade.size ∧
    (canonToken Perspective.taker yesTok t s e g tok).map Trade.volume_usdc =
      (canonToken Perspective.maker yesTok t s e g tok).map Trade.volume_usdc ∧
    (canonToken Perspective.taker yesTok t s e g tok).map Trade.proxyWallet =
      (canonToken Perspective.taker yesTok t s e g tok).map (fun _ => (firstFill g).taker) ∧
    (canonToken Perspective.maker yesTok t s e g tok).map Trade.proxyWallet =
      (canonToken Perspective.maker yesTok t s e g tok).map (fun _ => (firstFill g).maker) := by
  have hswap := netTokens_taker_neg_maker tok g
  refine ⟨hswap, ?_⟩
  rcases lt_trichotomy (netTokens Perspective.maker tok g) 0 with hm | hm | hm
  · have ht : 0 < netTokens Perspective.taker tok g := by rw [hswap]; linarith
    have hsz : netTokens Perspective.taker tok g = abs (netTokens Perspective.maker tok g) := by
      rw [hswap, abs_of_neg hm]
    rw [canonToken_of_neg hm, canonToken_of_pos ht, hsz]
    simp [mkTrade, Side.flip, pwallet]
  · have ht : netTokens Perspective.taker tok g = 0 := by rw [hswap, hm, neg_zero]
    rw [canonToken_none_of_zero hm, canonToken_none_of_zero ht]
    simp
  · have ht : netTokens Perspective.taker tok g < 0 := by rw [hswap]; linarith
    have hsz : abs (netTokens Perspective.taker tok g) = netTokens Perspective.maker tok g := by
      rw [hswap, abs_neg, abs_of_pos hm]
    rw [canonToken_of_pos hm, canonToken_of_neg ht, hsz]
    simp [mkTrade, Side.flip, pwallet]

/-! ### C2 (corrected): the emitted timestamp is the transaction-wide
maximum, not the per-token maximum -/

/-- A mixed transaction: a Yes fill at timestamp 10 and a No fill at
timestamp 20 under the same hash. -/
def exG2 : List Fill :=
  [⟨"0xC", 10, "M1", "T1", "Y", 10000000, "0", 6000000⟩,
   ⟨"0xC", 20, "M2", "T2", "N", 5000000, "0", 2000000⟩]

/-- The Yes trade that `canon_group` emits for `exG2` under the taker
perspective. -/
def trC2 : Trade :=
  ⟨"0xC", 20, Side.BUY, Outcome.Yes, some (3 / 5), 10, 6, "Y", "T1", "", "", ""⟩

/-- Concrete evaluation of the Yes token of `exG2`. -/
lemma canonToken_exG2 :
    canonToken Perspective.taker "Y" "" "" "" exG2 "Y" = some trC2 := by
  rw [canonToken_of_pos (by
    norm_num [netTokens, tokenFills, fillNet, exG2, DECIMALS,
      (by decide : ("N" : String) ≠ "Y"), (by decide : ("0" : String) ≠ "Y")])]
  norm_num [mkTrade, netTokens, tokenFills, fillNet, totalUsdcVolume, fillVolume,
    maxTimestamp, firstFill, pwallet, exG2, trC2, DECIMALS, List.max?,
    (by decide : ("N" : String) ≠ "Y"), (by decide : ("0" : String) ≠ "Y")]

/-- Counterexample to C2 as stated: the Yes trade of `exG2` carries
timestamp 20, the maximum over the whole transaction, although the only
fill involving the Yes token has timestamp 10. -/
theorem C2_counterexample :
    (canonToken Perspective.taker "Y" "" "" "" exG2 "Y").map Trade.timestamp = some 20 ∧
    (tokenFills "Y" exG2).map (fun f => f.timestamp) = [10] ∧
    (20 : Int) ≠ 10 := by
  refine ⟨?_, by decide, by decide⟩
  rw [canonToken_exG2]
  rfl

/-- Behavior of `int(g["timestamp"].max())` on a nonempty group. -/
lemma maxTimestamp_spec {g : List Fill} (hg : g ≠ []) :
    (∃ f ∈ g, maxTimestamp g = f.timestamp) ∧ ∀ f ∈ g, f.timestamp ≤ maxTimestamp g := by
  obtain ⟨m, hm⟩ : ∃ m, (g.map fun f => f.timestamp).max? = some m := by
    cases hmap : g.map (fun f => f.timestamp) with
    | nil => exact absurd (List.map_eq_nil_iff.mp hmap) hg
    | cons t ts => exact ⟨ts.foldl max t, rfl⟩
  have hmem := List.max?_mem (fun a b => max_choice a b) hm
  have hub := (List.max?_le_iff (fun a b c => max_le_iff) hm).mp (le_refl m)
  have hmax : maxTimestamp g = m := by simp [maxTimestamp, hm]
  constructor
  · obtain ⟨f, hf, hfts⟩ := List.mem_map.mp hmem
    exact ⟨f, hf, by rw [hmax, ← hfts]⟩
  · intro f hf
    rw [hmax]
    exact hub _ (List.mem_map_of_mem _ hf)

/-- C2 amended: the timestamp of every emitted trade is the maximum
timestamp over ALL fills of the transaction group — the group-wide
maximum, not the per-token maximum. -/
theorem C2_amended_timestamp_is_group_max (persp : Perspective)
    (yesTok t s e tok : String) (g : List Fill) (tr : Trade)
    (h : canonToken persp yesTok t s e g tok = some tr) :
    (∃ f ∈ g, tr.timestamp = f.timestamp) ∧ ∀ f ∈ g, f.timestamp ≤ tr.timestamp := by
  obtain ⟨hne, -, hts, -⟩ := canonToken_some_inv h
  have hg : g ≠ [] := by
    intro h0
    exact hne (by simp [tokenFills, h0])
  rw [hts]
  exact maxTimestamp_spec hg

/-- Witness for the amended C2 on the mixed transaction `exG2`. -/
theorem C2_amended_witness :
    (∃ f ∈ exG2, trC2.timestamp = f.timestamp) ∧
    ∀ f ∈ exG2, f.timestamp ≤ trC2.timestamp :=
  C2_amended_timestamp_is_group_max Perspective.taker "Y" "" "" "" "Y" exG2 trC2
    canonToken_exG2

/-! ### C5: the price invariant -/

/-- C5: every emitted trade has positive size, a non-null price produced
under the `size > 0` guard, and satisfies `price * size = volume`. -/
theorem C5_price_times_size_eq_volume (persp : Perspective)
    (yesTok t s e tok : String) (g : List Fill) (tr : Trade)
    (h : canonToken persp yesTok t s e g tok = some tr) :
    0 < tr.size ∧ ∃ p, tr.price = some p ∧ p * tr.size = tr.volume_usdc := by
  obtain ⟨-, -, -, -, -, hvol, -, hpos, hprice⟩ := canonToken_some_inv h
  refine ⟨hpos, totalUsdcVolume tok g / tr.size, hprice, ?_⟩
  rw [hvol, div_mul_cancel₀ _ (ne_of_gt hpos)]

/-- Witness for C5 on the Yes trade of `exG2`. -/
theorem C5_witness :
    0 < trC2.size ∧ ∃ p, trC2.price = some p ∧ p * trC2.size = trC2.volume_usdc :=
  C5_price_times_size_eq_volume Perspective.taker "Y" "" "" "" "Y" exG2 trC2
    canonToken_exG2

/-! ### C9: Yes and No are aggregated independently within one transaction -/

/-- C9: a transaction whose fills net nonzero in both tokens yields exactly
two trade records — Yes first, then No — each with the absolute net of its
own token as size and the settlement volume summed over its own token's
fills only; nothing cancels across tokens. -/
theorem C9_two_records_per_mixed_transaction (persp : Perspective)
    (yesTok noTok t s e : String) (g : List Fill) (hyn : noTok ≠ yesTok)
    (hY : netTokens persp yesTok g ≠ 0) (hN : netTokens persp noTok g ≠ 0) :
    ∃ tY tN, canon_group persp yesTok noTok t s e g = [tY, tN] ∧
      tY.asset = yesTok ∧ tY.outcome = Outcome.Yes ∧
      tY.size = abs (netTokens persp yesTok g) ∧
      tY.volume_usdc = totalUsdcVolume yesTok g ∧
      tN.asset = noTok ∧ tN.outcome = Outcome.No ∧
      tN.size = abs (netTokens persp noTok g) ∧
      tN.volume_usdc = totalUsdcVolume noTok g := by
  have hYes := @canonToken_of_ne persp yesTok t s e yesTok g hY
  have hNo := @canonToken_of_ne persp yesTok t s e noTok g hN
  refine ⟨mkTrade persp yesTok t s e g yesTok
      (if 0 < netTokens persp yesTok g then Side.BUY else Side.SELL)
      (abs (netTokens persp yesTok g)),
    mkTrade persp yesTok t s e g noTok
      (if 0 < netTokens persp noTok g then Side.BUY else Side.SELL)
      (abs (netTokens persp noTok g)), ?_, rfl, ?_, rfl, rfl, rfl, ?_, rfl, rfl⟩
  · simp [canon_group, hYes, hNo]
  · simp [mkTrade]
  · simp [mkTrade, hyn]

/-- Witness for C9 on the mixed transaction `exG2` (net +10 Yes, net +5 No). -/
theorem C9_witness :
    ∃ tY tN, canon_group Perspective.taker "Y" "N" "" "" "" exG2 = [tY, tN] ∧
      tY.asset = "Y" ∧ tY.outcome = Outcome.Yes ∧
      tY.size = abs (netTokens Perspective.taker "Y" exG2) ∧
      tY.volume_usdc = totalUsdcVolume "Y" exG2 ∧
      tN.asset = "N" ∧ tN.outcome = Outcome.No ∧
      tN.size = abs (netTokens Perspective.taker "N" exG2) ∧
      tN.volume_usdc = totalUsdcVolume "N" exG2 :=
  C9_two_records_per_mixed_transaction Perspective.taker "Y" "N" "" "" "" exG2
    (by decide)
    (by norm_num [netTokens, tokenFills, fillNet, exG2, DECIMALS,
      (by decide : ("N" : String) ≠ "Y"), (by decide : ("0" : String) ≠ "Y")])
    (by norm_num [netTokens, tokenFills, fillNet, exG2, DECIMALS,
      (by decide : ("Y" : String) ≠ "N"), (by decide : ("0" : String) ≠ "N")])

/-! ### C6 (corrected): the resolver falls back to built-in defaults,
never to dataset inference, and never fails -/

/-- A dataset from which inference would pick the pair ("7", "8"). -/
def dfC6 : List Fill :=
  [⟨"t1", 0, "", "", "7", 0, "0", 0⟩, ⟨"t2", 0, "", "", "7", 0, "8", 0⟩]

/-- Counterexample to C6 as stated: with no explicit pair and no
condition/collateral, `determine_token_ids` does not infer from the
dataset (inference would yield ("7", "8")) and does not fail — it
silently returns the built-in default pair. -/
theorem C6_counterexample :
    determine_token_ids (fun _ _ _ => none) dfC6 {} =
      (DEFAULT_YES_TOKEN, DEFAULT_NO_TOKEN) ∧
    infer_token_ids_from_file dfC6 = some ("7", "8") ∧
    (DEFAULT_YES_TOKEN, DEFAULT_NO_TOKEN) ≠ (("7" : String), ("8" : String)) := by
  refine ⟨by decide, by decide, by decide⟩

/-- C6 amended: whenever neither the explicit pair nor the
condition/collateral pair is (truthily) supplied, `determine_token_ids`
returns the built-in default pair — it never consults the fill dataset
and never fails. -/
theorem C6_amended_default_fallback (derivePositionId : String → Nat → String → Option String)
    (df : List Fill) (args : Args)
    (h1 : truthy args.yes_token = false ∨ truthy args.no_token = false)
    (h2 : truthy args.condition = false ∨ truthy args.collateral = false) :
    determine_token_ids derivePositionId df args = (DEFAULT_YES_TOKEN, DEFAULT_NO_TOKEN) := by
  rcases h1 with h1 | h1 <;> rcases h2 with h2 | h2 <;>
    simp [determine_token_ids, h1, h2]

/-- Witness for the amended C6: empty arguments resolve to the default
pair. -/
theorem C6_amended_witness :
    determine_token_ids (fun _ _ _ => none) dfC6 {} =
      (DEFAULT_YES_TOKEN, DEFAULT_NO_TOKEN) :=
  C6_amended_default_fallback (fun _ _ _ => none) dfC6 {} (Or.inl rfl) (Or.inl rfl)

/-! ### C7 (corrected): the 1025-heuristic, with the empty-string
truthiness escape -/

/-- A dataset whose two most frequent non-sentinel ids are "1025A" (twice)
and the empty string (once). -/
def dfC7 : List Fill :=
  [⟨"t1", 0, "", "", "1025A", 0, "0", 0⟩, ⟨"t2", 0, "", "", "1025A", 0, "0", 0⟩,
   ⟨"t3", 0, "", "", "", 0, "0", 0⟩]

/-- Counterexample to C7 as stated: exactly one of the top two ids starts
with "1025", yet inference assigns that id to Yes (first component), not
No — the heuristic is skipped because the other candidate, the empty
string, is falsy in the source's `if yes and no` check. -/
theorem C7_counterexample :
    value_counts (nonZeroAssets dfC7) = ["1025A", ""] ∧
    startsWith1025 "1025A" = true ∧
    startsWith1025 "" = false ∧
    infer_token_ids_from_file dfC7 = some ("1025A", "") ∧
    (("1025A" : String), ("" : String)) ≠ (("" : String), ("1025A" : String)) := by
  refine ⟨by decide, by decide, by decide, by decide, by decide⟩

/-- C7 amended: with at least two distinct non-sentinel ids ranked `a`
then `b` by frequency, inference returns `(b, a)` when `a` starts with
"1025", `b` does not, and `b` is nonempty; in every other case —
including when the non-matching candidate is the empty string — it
returns `(a, b)`; with fewer than two distinct ids it returns nothing. -/
theorem C7_amended_inference_characterization (df : List Fill) :
    (∀ a b rest, value_counts (nonZeroAssets df) = a :: b :: rest →
      infer_token_ids_from_file df =
        if startsWith1025 a = true ∧ startsWith1025 b = false ∧ b ≠ "" then some (b, a)
        else some (a, b)) ∧
    ((value_counts (nonZeroAssets df)).length < 2 →
      infer_token_ids_from_file df = none) := by
  constructor
  · intro a b rest h
    have ha : startsWith1025 a = true → a ≠ "" := by
      intro hs he
      rw [he] at hs
      exact absurd hs (by decide)
    rw [infer_token_ids_from_file, h]
    simp only [List.length_cons, List.take_succ_cons, List.take_zero, List.foldl_cons,
      List.foldl_nil, List.getD, List.getElem?_cons_zero, List.getElem?_cons_succ,
      Option.getD_some]
    by_cases hsa : startsWith1025 a = true <;> by_cases hsb : startsWith1025 b = true
    · simp [hsa, hsb, truthy]
    · by_cases hb : b = ""
      · simp [hsa, hsb, hb, truthy, (by decide : startsWith1025 "" = false)]
      · simp [hsa, hsb, hb, ha hsa, truthy]
    · by_cases hA : a = ""
      · simp [hsa, hsb, hA, truthy, (by decide : startsWith1025 "" = false)]
      · simp [hsa, hsb, hA, truthy]
    · simp [hsa, hsb, truthy]
  · intro h
    rw [infer_token_ids_from_file]
    simp [Nat.not_le.mpr h]

/-- Witness for the amended C7 on `dfC7`: the heuristic does not apply
because the second candidate is empty, so the frequency order is kept. -/
theorem C7_amended_witness :
    infer_token_ids_from_file dfC7 = some ("1025A", "") := by
  have h := (C7_amended_inference_characterization dfC7).1 "1025A" "" [] (by decide)
  simpa using h

/-! ### C10: the proxy wallet comes from an earliest fill of the whole
transaction, shared by every trade of that transaction -/

instance : IsTotal Fill (fun a b => a.timestamp ≤ b.timestamp) :=
  ⟨fun a b => le_total a.timestamp b.timestamp⟩

instance : IsTrans Fill (fun a b => a.timestamp ≤ b.timestamp) :=
  ⟨fun _ _ _ hab hbc => le_trans hab hbc⟩

/-- Membership in a transaction group. -/
lemma groupFills_mem {tx : String} {l : List Fill} {f : Fill}
    (h : f ∈ groupFills tx l) : f ∈ l ∧ f.transactionHash = tx := by
  rw [groupFills, List.mem_filter] at h
  exact ⟨h.1, by simpa using h.2⟩

/-- Converse membership in a transaction group. -/
lemma mem_groupFills {tx : String} {l : List Fill} {f : Fill}
    (hl : f ∈ l) (hx : f.transactionHash = tx) : f ∈ groupFills tx l := by
  rw [groupFills, List.mem_filter]
  exact ⟨hl, by simpa using hx⟩

/-- The first fill of a nonempty sorted transaction group belongs to the
transaction, lies in the unsorted retained set, and has minimal timestamp
among the transaction's retained fills. -/
lemma firstFill_groupFills_sorted (kept : List Fill) (tx : String)
    (hne : groupFills tx (sortFillsByTs kept) ≠ []) :
    (firstFill (groupFills tx (sortFillsByTs kept))).transactionHash = tx ∧
    firstFill (groupFills tx (sortFillsByTs kept)) ∈ groupFills tx kept ∧
    ∀ f' ∈ groupFills tx kept,
      (firstFill (groupFills tx (sortFillsByTs kept))).timestamp ≤ f'.timestamp := by
  have hsorted : List.Sorted (fun a b : Fill => a.timestamp ≤ b.timestamp)
      (sortFillsByTs kept) :=
    List.sorted_insertionSort _ kept
  have hgs : List.Sorted (fun a b : Fill => a.timestamp ≤ b.timestamp)
      (groupFills tx (sortFillsByTs kept)) :=
    List.Sorted.filter _ hsorted
  have hperm := List.perm_insertionSort
    (fun a b : Fill => a.timestamp ≤ b.timestamp) kept
  cases hgtx : groupFills tx (sortFillsByTs kept) with
  | nil => exact absurd hgtx hne
  | cons f0 rest =>
    have hf0g : f0 ∈ groupFills tx (sortFillsByTs kept) := by
      rw [hgtx]; exact List.mem_cons_self f0 rest
    obtain ⟨hf0s, hf0x⟩ := groupFills_mem hf0g
    have hfirst : firstFill (f0 :: rest) = f0 := rfl
    rw [hfirst]
    refine ⟨hf0x, mem_groupFills (hperm.mem_iff.mp hf0s) hf0x, ?_⟩
    intro f' hf'
    obtain ⟨hf'k, hf'x⟩ := groupFills_mem hf'
    have hf'g : f' ∈ groupFills tx (sortFillsByTs kept) :=
      mem_groupFills (hperm.mem_iff.mpr hf'k) hf'x
    rw [hgtx] at hf'g
    rcases List.mem_cons.mp hf'g with rfl | hf'rest
    · exact le_refl _
    · rw [hgtx] at hgs
      exact List.rel_of_sorted_cons hgs f' hf'rest

/-- Every trade emitted by `canon_group` carries the group's first fill's
transaction hash and perspective wallet. -/
lemma canon_group_mem {persp : Perspective} {yesTok noTok t s e : String}
    {g : List Fill} {tr : Trade}
    (h : tr ∈ canon_group persp yesTok noTok t s e g) :
    g ≠ [] ∧ tr.transactionHash = (firstFill g).transactionHash ∧
    tr.proxyWallet = pwallet persp (firstFill g) := by
  rw [canon_group, List.mem_filterMap] at h
  obtain ⟨tok, -, hsome⟩ := h
  obtain ⟨hne, hhash, -, hwallet, -⟩ := canonToken_some_inv hsome
  have hg : g ≠ [] := by
    intro h0
    exact hne (by simp [tokenFills, h0])
  exact ⟨hg, hhash, hwallet⟩

/-- Every row of `groupRows` belongs to the canonical group of its own
transaction hash and carries that group's first-fill wallet. -/
lemma groupRows_mem {persp : Perspective} {yesTok noTok t s e : String}
    {kept : List Fill} {tr : Trade}
    (h : tr ∈ groupRows persp yesTok noTok t s e kept) :
    tr ∈ canon_group persp yesTok noTok t s e
        (groupFills tr.transactionHash (sortFillsByTs kept)) ∧
    tr.proxyWallet =
      pwallet persp (firstFill (groupFills tr.transactionHash (sortFillsByTs kept))) := by
  rw [groupRows, List.mem_flatMap] at h
  obtain ⟨tx, -, htr⟩ := h
  obtain ⟨hg, hhash, hwallet⟩ := canon_group_mem htr
  have htx : tr.transactionHash = tx := by
    rw [hhash]
    cases hgtx : groupFills tx (sortFillsByTs kept) with
    | nil => exact absurd hgtx hg
    | cons f0 rest =>
      have hf0 : f0 ∈ groupFills tx (sortFillsByTs kept) := by
        rw [hgtx]; exact List.mem_cons_self f0 rest
      have := (groupFills_mem hf0).2
      simpa [firstFill] using this
  rw [htx]
  exact ⟨htr, hwallet⟩

/-- C10: every emitted trade's proxyWallet is the perspective-dependent
wallet of a minimum-timestamp fill among ALL retained fills of its
transaction (not restricted to the trade's own token), and all trades
sharing a transaction hash share that same wallet. -/
theorem C10_wallet_from_earliest_fill_of_transaction
    (df : List Fill) (yesTok noTok t s e : String) (persp : Perspective)
    (rows : List Trade) (tr : Trade)
    (h : clean_trades df yesTok noTok t s e persp = Except.ok rows) (htr : tr ∈ rows) :
    (∃ f ∈ groupFills tr.transactionHash (filterFills yesTok noTok df),
       (∀ f' ∈ groupFills tr.transactionHash (filterFills yesTok noTok df),
          f.timestamp ≤ f'.timestamp) ∧
       tr.proxyWallet = pwallet persp f) ∧
    ∀ tr' ∈ rows, tr'.transactionHash = tr.transactionHash →
      tr'.proxyWallet = tr.proxyWallet := by
  simp only [clean_trades] at h
  by_cases hk : (filterFills yesTok noTok df).isEmpty
  · rw [if_pos hk] at h
    exact absurd h (by simp)
  · rw [if_neg hk] at h
    have hrows : rows = List.insertionSort (fun a b : Trade => b.timestamp ≤ a.timestamp)
        (groupRows persp yesTok noTok t s e (filterFills yesTok noTok df)) :=
      (Except.ok.inj h).symm
    have hmem : ∀ x : Trade, x ∈ rows ↔
        x ∈ groupRows persp yesTok noTok t s e (filterFills yesTok noTok df) := by
      intro x
      rw [hrows]
      exact (List.perm_insertionSort _ _).mem_iff
    obtain ⟨hcg, hwallet⟩ := groupRows_mem ((hmem tr).mp htr)
    have hg : groupFills tr.transactionHash (sortFillsByTs (filterFills yesTok noTok df)) ≠ [] :=
      (canon_group_mem hcg).1
    obtain ⟨-, hmem0, hmin0⟩ :=
      firstFill_groupFills_sorted (filterFills yesTok noTok df) tr.transactionHash hg
    constructor
    · exact ⟨firstFill (groupFills tr.transactionHash
        (sortFillsByTs (filterFills yesTok noTok df))), hmem0, hmin0, hwallet⟩
    · intro tr' htr'' hhash'
      obtain ⟨-, hwallet'⟩ := groupRows_mem ((hmem tr').mp htr'')
      rw [hwallet', hhash', ← hwallet]

/-- The No trade that `clean_trades` emits for `exG2` under the taker
perspective. -/
def trC10b : Trade :=
  ⟨"0xC", 20, Side.BUY, Outcome.No, some (2 / 5), 5, 2, "N", "T1", "", "", ""⟩

/-- Concrete end-to-end evaluation of the pipeline on the mixed
transaction `exG2`. -/
lemma clean_trades_exG2 :
    clean_trades exG2 "Y" "N" "" "" "" Perspective.taker = Except.ok [trC2, trC10b] := by
  norm_num [clean_trades, filterFills, maskTokenUsdc, isToken, USDC_ZERO_ID, exG2,
    sortFillsByTs, List.insertionSort, List.orderedInsert, dedupKeepFirst, groupRows,
    groupFills, canon_group, canonToken, tokenFills, netTokens, fillNet,
    totalUsdcVolume, fillVolume, mkTrade, maxTimestamp, firstFill, pwallet, DECIMALS,
    List.max?, trC2, trC10b, List.filterMap_cons, List.filterMap_nil,
    (by decide : ("N" : String) ≠ "Y"), (by decide : ("0" : String) ≠ "Y"),
    (by decide : ("Y" : String) ≠ "N"), (by decide : ("0" : String) ≠ "N")]

/-- Witness for C10 on `exG2`: the wallet of both trades is the taker of
the minimum-timestamp fill of the whole transaction. -/
theorem C10_witness :
    (∃ f ∈ groupFills trC2.transactionHash (filterFills "Y" "N" exG2),
       (∀ f' ∈ groupFills trC2.transactionHash (filterFills "Y" "N" exG2),
          f.timestamp ≤ f'.timestamp) ∧
       trC2.proxyWallet = pwallet Perspective.taker f) ∧
    ∀ tr' ∈ [trC2, trC10b], tr'.transactionHash = trC2.transactionHash →
      tr'.proxyWallet = trC2.proxyWallet :=
  C10_wallet_from_earliest_fill_of_transaction exG2 "Y" "N" "" "" "" Perspective.taker
    [trC2, trC10b] trC2 clean_trades_exG2 (List.mem_cons_self trC2 [trC10b])

end CleanPolymarket
